import Mathlib

/-
Shallow embedding of the movie-browser app's local cache and favorites
persistence layer:
  - CacheService (src/services/cacheService.ts): generic expiring key-value
    cache over AsyncStorage with a metadata map, lazy expiration, a periodic
    sweep and size-based eviction, plus the favorites / recently-viewed
    convenience wrappers.
  - StorageService (same file, second module): favorites list and search
    history persistence.
  - FavoritesContext (reducer + provider actions) and MovieContext reducer.
AsyncStorage and JS objects are modelled as association lists with unique
keys (updates in place, new keys appended, mirroring JS object key order).
Time is an explicit `Int` millisecond clock passed to each operation in
place of Date.now(). Storage faults are injected through explicit boolean
flags; a caught JS exception becomes the catch clause's return value and a
rethrown exception becomes `Except.error`.
-/

namespace MovieApp

/-- Model of writing a key in a JS object / AsyncStorage: an existing key is
updated in place, a new key is appended (JS object key insertion order, as
observed by Object.entries). -/
def objSet {β : Type} (l : List (String × β)) (k : String) (v : β) :
    List (String × β) :=
  if l.any (fun p => p.1 == k) then
    l.map (fun p => if p.1 = k then (k, v) else p)
  else l ++ [(k, v)]

/-- Model of deleting a key from a JS object / AsyncStorage. -/
def objRemove {β : Type} (l : List (String × β)) (k : String) :
    List (String × β) :=
  l.filter (fun p => p.1 != k)

/-- Movie record; the persistence layer only ever discriminates by `id`. -/
structure Movie where
  id : Nat
  title : String
deriving DecidableEq, Repr

/-- Genre record from src/types/movie.ts. -/
structure Genre where
  id : Nat
  name : String
deriving DecidableEq, Repr

/-- CacheItem<T> from cacheService.ts: payload plus write timestamp and an
optional expiry duration in milliseconds. -/
structure CacheItem (α : Type) where
  data : α
  timestamp : Int
  expiresIn : Option Int
deriving DecidableEq, Repr

/-- CacheConfig from cacheService.ts. -/
structure CacheConfig where
  defaultExpirationTime : Int
  maxCacheSize : Nat
  cleanupInterval : Int
deriving DecidableEq, Repr

/-- Constructor defaults: 30 minutes, 1000 items, 1 hour. -/
def defaultCacheConfig : CacheConfig :=
  { defaultExpirationTime := 30 * 60 * 1000
    maxCacheSize := 1000
    cleanupInterval := 60 * 60 * 1000 }

/-- The slice of AsyncStorage owned by CacheService: the payload entries and
the persisted cache-metadata map (key to last write time). -/
structure CacheState (α : Type) where
  store : List (String × CacheItem α)
  metadata : List (String × Int)
deriving DecidableEq, Repr

/-- Empty storage. -/
def emptyCacheState {α : Type} : CacheState α := ⟨[], []⟩

/-- JS `x || d` applied to an optional numeric argument: both `undefined`
and `0` fall back to the default. -/
def jsOr (x : Option Int) (d : Int) : Int :=
  match x with
  | none => d
  | some n => if n == 0 then d else n

namespace CacheService

/-- isCacheExpired: `if (!item.expiresIn) return false; return
Date.now() - item.timestamp > item.expiresIn`. -/
def isCacheExpired {α : Type} (now : Int) (item : CacheItem α) : Bool :=
  match item.expiresIn with
  | none => false
  | some e => if e == 0 then false else decide (now - item.timestamp > e)

/-- set: stores `{data, timestamp: now, expiresIn: expiresIn || default}`
under `key` and records `key -> now` in the metadata map. -/
def set {α : Type} (cfg : CacheConfig) (s : CacheState α) (key : String)
    (data : α) (expiresIn : Option Int) (now : Int) : CacheState α :=
  { store := objSet s.store key
      { data := data
        timestamp := now
        expiresIn := some (jsOr expiresIn cfg.defaultExpirationTime) }
    metadata := objSet s.metadata key now }

/-- remove: deletes the payload entry and its metadata entry. -/
def remove {α : Type} (s : CacheState α) (key : String) : CacheState α :=
  { store := objRemove s.store key
    metadata := objRemove s.metadata key }

/-- get: absent key yields no value; an expired entry is deleted and yields
no value (lazy expiration); otherwise the payload is returned. The returned
state is the storage after the call. -/
def get {α : Type} (s : CacheState α) (key : String) (now : Int) :
    Option α × CacheState α :=
  match s.store.lookup key with
  | none => (none, s)
  | some item =>
    if isCacheExpired now item then (none, remove s key)
    else (some item.data, s)

/-- One iteration of the cleanup loop for a single metadata key: read the
payload and remove it when expired. -/
def sweepStep {α : Type} (now : Int) (acc : CacheState α) (key : String) :
    CacheState α :=
  match acc.store.lookup key with
  | some item => if isCacheExpired now item then remove acc key else acc
  | none => acc

/-- First half of cleanupExpiredItems: iterate over the metadata keys (the
key list is captured before the loop) and drop every expired payload. -/
def sweepExpired {α : Type} (s : CacheState α) (now : Int) : CacheState α :=
  (s.metadata.map Prod.fst).foldl (sweepStep now) s

/-- Comparator used by enforceCacheSize: ascending metadata timestamp. -/
def tsLe (a b : String × Int) : Bool :=
  decide (a.2 ≤ b.2)

/-- enforceCacheSize: when the metadata map holds more than maxCacheSize
entries, sort the entries by timestamp (oldest first) and remove the first
`count - maxCacheSize` of them. -/
def enforceCacheSize {α : Type} (cfg : CacheConfig) (s : CacheState α) :
    CacheState α :=
  if s.metadata.length > cfg.maxCacheSize then
    ((s.metadata.mergeSort tsLe).take
        (s.metadata.length - cfg.maxCacheSize)).foldl
      (fun acc p => remove acc p.1) s
  else s

/-- cleanupExpiredItems: expiry sweep followed by size enforcement. -/
def cleanupExpiredItems {α : Type} (cfg : CacheConfig) (s : CacheState α)
    (now : Int) : CacheState α :=
  enforceCacheSize cfg (sweepExpired s now)

/-- Storage key for the favorites list. -/
def FAVORITES_KEY : String := "cache_favorites"

/-- Storage key for the recently-viewed list. -/
def RECENTLY_VIEWED_KEY : String := "cache_recently_viewed"

/-- cacheFavorites: `set(KEYS.FAVORITES, favorites)` with no expiry
argument. -/
def cacheFavorites (cfg : CacheConfig) (s : CacheState (List Movie))
    (favorites : List Movie) (now : Int) : CacheState (List Movie) :=
  set cfg s FAVORITES_KEY favorites none now

/-- getCachedFavorites: `get(KEYS.FAVORITES)`. -/
def getCachedFavorites (s : CacheState (List Movie)) (now : Int) :
    Option (List Movie) × CacheState (List Movie) :=
  get s FAVORITES_KEY now

/-- cacheRecentlyViewed: `set(KEYS.RECENTLY_VIEWED, movies)` with no expiry
argument. -/
def cacheRecentlyViewed (cfg : CacheConfig) (s : CacheState (List Movie))
    (movies : List Movie) (now : Int) : CacheState (List Movie) :=
  set cfg s RECENTLY_VIEWED_KEY movies none now

/-- getCachedRecentlyViewed: `get(KEYS.RECENTLY_VIEWED)`. -/
def getCachedRecentlyViewed (s : CacheState (List Movie)) (now : Int) :
    Option (List Movie) × CacheState (List Movie) :=
  get s RECENTLY_VIEWED_KEY now

/-- get when the underlying AsyncStorage.getItem call throws: the catch
clause logs and returns null, leaving storage untouched. -/
def getWithReadFailure {α : Type} (readFails : Bool) (s : CacheState α)
    (key : String) (now : Int) : Option α × CacheState α :=
  if readFails then (none, s) else get s key now

/-- set when the underlying AsyncStorage.setItem call throws: the catch
clause logs and the method completes normally; nothing was stored. -/
def setWithWriteFailure {α : Type} (writeFails : Bool) (cfg : CacheConfig)
    (s : CacheState α) (key : String) (data : α) (expiresIn : Option Int)
    (now : Int) : CacheState α :=
  if writeFails then s else set cfg s key data expiresIn now

end CacheService

/-- ASCII model of JS String.prototype.toLowerCase. -/
def jsToLower (s : String) : String :=
  ⟨s.data.map Char.toLower⟩

/-- Model of JS String.prototype.trim: strip whitespace at both ends. -/
def jsTrim (s : String) : String :=
  ⟨((s.data.dropWhile Char.isWhitespace).reverse.dropWhile
      Char.isWhitespace).reverse⟩

namespace StorageService

/-- MAX_SEARCH_HISTORY constant. -/
def MAX_SEARCH_HISTORY : Nat := 10

/-- getFavorites: parse the persisted list, `[]` when the key is absent; a
storage read error is caught and also yields `[]`. -/
def getFavorites (readFails : Bool) (persisted : Option (List Movie)) :
    List Movie :=
  if readFails then [] else persisted.getD []

/-- saveFavorites: serialize and write the list; a storage error is caught
and rethrown as "Failed to save favorites". On success the persisted slot
holds the new list. -/
def saveFavorites (writeFails : Bool) (favorites : List Movie) :
    Except String (Option (List Movie)) :=
  if writeFails then Except.error "Failed to save favorites"
  else Except.ok (some favorites)

/-- addToFavorites: read the current favorites, prepend when the id is not
already present and save; any error in the body is caught and rethrown as
"Failed to add to favorites". On success returns the list handed back to
the caller together with the persisted slot after the call. -/
def addToFavorites (readFails writeFails : Bool)
    (persisted : Option (List Movie)) (movie : Movie) :
    Except String (List Movie × Option (List Movie)) :=
  let currentFavorites := getFavorites readFails persisted
  if currentFavorites.any (fun fav => fav.id == movie.id) then
    Except.ok (currentFavorites, persisted)
  else
    match saveFavorites writeFails (movie :: currentFavorites) with
    | Except.ok p => Except.ok (movie :: currentFavorites, p)
    | Except.error _ => Except.error "Failed to add to favorites"

/-- addToSearchHistory: a blank (all-whitespace) query leaves the history
unchanged; otherwise entries equal to the query ignoring letter case are
filtered out, the query is prepended and the list truncated to
MAX_SEARCH_HISTORY entries. -/
def addToSearchHistory (history : List String) (query : String) :
    List String :=
  if jsTrim query == "" then history
  else
    (query :: history.filter
        (fun item => jsToLower item != jsToLower query)).take
      MAX_SEARCH_HISTORY

end StorageService

namespace FavoritesContext

/-- ADD_FAVORITE branch of favoritesReducer: a movie whose id is already
present is a no-op, otherwise it is prepended. -/
def addFavoriteReducer (favorites : List Movie) (m : Movie) : List Movie :=
  if favorites.any (fun movie => movie.id == m.id) then favorites
  else m :: favorites

/-- ADD_RECENTLY_VIEWED branch of favoritesReducer: remove any entry with
the same id, prepend, keep only the first 50. -/
def addRecentlyViewedReducer (recentlyViewed : List Movie) (m : Movie) :
    List Movie :=
  (m :: recentlyViewed.filter (fun movie => movie.id != m.id)).take 50

/-- One sequential call of the provider's addToFavorites on in-memory
favorites `mem`: the dispatched ADD_FAVORITE goes through the reducer's
duplicate check, while `cacheFavorites([movie, ...state.favorites])`
persists an unconditional prepend of the movie to the pre-dispatch list.
Returns (new in-memory list, list written to the cache). -/
def addToFavoritesStep (mem : List Movie) (movie : Movie) :
    List Movie × List Movie :=
  (addFavoriteReducer mem movie, movie :: mem)

end FavoritesContext

namespace MovieContext

/-- MovieState from MovieContext.tsx. -/
structure MovieState where
  popularMovies : List Movie
  topRatedMovies : List Movie
  upcomingMovies : List Movie
  nowPlayingMovies : List Movie
  searchResults : List Movie
  genres : List Genre
  loading : Bool
  error : Option String
  searchLoading : Bool
  currentPage : Nat
  totalPages : Nat
  hasMorePages : Bool
  favorites : List Movie
  searchQuery : String
  searchHistory : List String
  selectedCategory : String
deriving DecidableEq, Repr

/-- MovieAction variants from MovieContext.tsx. -/
inductive MovieAction where
  | setLoading (payload : Bool)
  | setError (payload : Option String)
  | setSearchLoading (payload : Bool)
  | setPopularMovies (movies : List Movie) (page : Nat) (totalPages : Nat)
  | setTopRatedMovies (movies : List Movie) (page : Nat) (totalPages : Nat)
  | setUpcomingMovies (movies : List Movie) (page : Nat) (totalPages : Nat)
  | setNowPlayingMovies (movies : List Movie) (page : Nat) (totalPages : Nat)
  | appendPopularMovies (payload : List Movie)
  | appendTopRatedMovies (payload : List Movie)
  | appendUpcomingMovies (payload : List Movie)
  | appendNowPlayingMovies (payload : List Movie)
  | setSearchResults (results : List Movie) (page : Nat) (totalPages : Nat)
  | appendSearchResults (payload : List Movie)
  | clearSearchResults
  | setGenres (payload : List Genre)
  | setFavorites (payload : List Movie)
  | addToFavorites (payload : Movie)
  | removeFromFavorites (payload : Nat)
  | setSearchQuery (payload : String)
  | setSearchHistory (payload : List String)
  | addToSearchHistory (payload : String)
  | clearSearchHistory
  | setSelectedCategory (payload : String)
  | resetPagination
deriving DecidableEq, Repr

/-- movieReducer from MovieContext.tsx. -/
def movieReducer (state : MovieState) (action : MovieAction) : MovieState :=
  match action with
  | .setLoading b => { state with loading := b }
  | .setError e =>
    { state with error := e, loading := false, searchLoading := false }
  | .setSearchLoading b => { state with searchLoading := b }
  | .setPopularMovies movies page totalPages =>
    { state with popularMovies := movies, currentPage := page,
                 totalPages := totalPages,
                 hasMorePages := decide (page < totalPages),
                 loading := false, error := none }
  | .setTopRatedMovies movies page totalPages =>
    { state with topRatedMovies := movies, currentPage := page,
                 totalPages := totalPages,
                 hasMorePages := decide (page < totalPages),
                 loading := false, error := none }
  | .setUpcomingMovies movies page totalPages =>
    { state with upcomingMovies := movies, currentPage := page,
                 totalPages := totalPages,
                 hasMorePages := decide (page < totalPages),
                 loading := false, error := none }
  | .setNowPlayingMovies movies page totalPages =>
    { state with nowPlayingMovies := movies, currentPage := page,
                 totalPages := totalPages,
                 hasMorePages := decide (page < totalPages),
                 loading := false, error := none }
  | .appendPopularMovies ms =>
    { state with popularMovies := state.popularMovies ++ ms,
                 loading := false }
  | .appendTopRatedMovies ms =>
    { state with topRatedMovies := state.topRatedMovies ++ ms,
                 loading := false }
  | .appendUpcomingMovies ms =>
    { state with upcomingMovies := state.upcomingMovies ++ ms,
                 loading := false }
  | .appendNowPlayingMovies ms =>
    { state with nowPlayingMovies := state.nowPlayingMovies ++ ms,
                 loading := false }
  | .setSearchResults results page totalPages =>
    { state with searchResults := results, currentPage := page,
                 totalPages := totalPages,
                 hasMorePages := decide (page < totalPages),
                 searchLoading := false, error := none }
  | .appendSearchResults ms =>
    { state with searchResults := state.searchResults ++ ms,
                 searchLoading := false }
  | .clearSearchResults =>
    { state with searchResults := [], searchQuery := "", currentPage := 1,
                 totalPages := 1, hasMorePages := false }
  | .setGenres gs => { state with genres := gs }
  | .setFavorites fs => { state with favorites := fs }
  | .addToFavorites m =>
    { state with favorites :=
        m :: state.favorites.filter (fun fav => fav.id != m.id) }
  | .removeFromFavorites movieId =>
    { state with favorites :=
        state.favorites.filter (fun fav => fav.id != movieId) }
  | .setSearchQuery q => { state with searchQuery := q }
  | .setSearchHistory h => { state with searchHistory := h }
  | .addToSearchHistory q =>
    { state with searchHistory :=
        (q :: state.searchHistory.filter (fun item => item != q)).take 10 }
  | .clearSearchHistory => { state with searchHistory := [] }
  | .setSelectedCategory c => { state with selectedCategory := c }
  | .resetPagination =>
    { state with currentPage := 1, totalPages := 1, hasMorePages := false }

end MovieContext

/-- Lookup at the head key. -/
theorem lookup_cons_self {β : Type} (k : String) (pv : β)
    (rest : List (String × β)) : ((k, pv) :: rest).lookup k = some pv := by
  simp [List.lookup_cons]

/-- Lookup skips a head with a different key. -/
theorem lookup_cons_ne {β : Type} (k pk : String) (pv : β)
    (rest : List (String × β)) (h : k ≠ pk) :
    ((pk, pv) :: rest).lookup k = rest.lookup k := by
  have hb : (k == pk) = false := beq_eq_false_iff_ne.mpr h
  simp [List.lookup_cons, hb]

/-- Looking up the written key in the in-place-update branch of objSet. -/
theorem lookup_map_update_self {β : Type} (l : List (String × β)) (k : String)
    (v : β) (h : l.any (fun p => p.1 == k) = true) :
    (l.map (fun p => if p.1 = k then (k, v) else p)).lookup k = some v := by
  induction l with
  | nil => simp at h
  | cons p rest ih =>
    obtain ⟨pk, pv⟩ := p
    by_cases hk : pk = k
    · simp only [List.map_cons, if_pos hk]
      exact lookup_cons_self k v _
    · have h2 : rest.any (fun p => p.1 == k) = true := by
        simpa [List.any_cons, hk] using h
      simp only [List.map_cons, if_neg hk]
      rw [lookup_cons_ne k pk pv _ (fun he => hk he.symm)]
      exact ih h2

/-- Looking up another key in the in-place-update branch of objSet. -/
theorem lookup_map_update_ne {β : Type} (l : List (String × β)) (k k' : String)
    (v : β) (h : k' ≠ k) :
    (l.map (fun p => if p.1 = k then (k, v) else p)).lookup k' =
      l.lookup k' := by
  induction l with
  | nil => simp
  | cons p rest ih =>
    obtain ⟨pk, pv⟩ := p
    by_cases hk : pk = k
    · subst hk
      rw [List.map_cons, if_pos rfl, lookup_cons_ne k' pk v _ h,
        lookup_cons_ne k' pk pv _ h]
      exact ih
    · simp only [List.map_cons, if_neg hk]
      by_cases hk' : k' = pk
      · subst hk'
        rw [lookup_cons_self, lookup_cons_self]
      · rw [lookup_cons_ne k' pk pv _ hk', lookup_cons_ne k' pk pv _ hk']
        exact ih

/-- Looking up the written key in the append branch of objSet. -/
theorem lookup_append_single_self {β : Type} (l : List (String × β))
    (k : String) (v : β) (h : l.any (fun p => p.1 == k) = false) :
    (l ++ [(k, v)]).lookup k = some v := by
  induction l with
  | nil => simp [lookup_cons_self]
  | cons p rest ih =>
    obtain ⟨pk, pv⟩ := p
    rw [List.any_cons, Bool.or_eq_false_iff] at h
    have hpk : pk ≠ k := by
      intro he
      simp [he] at h
    rw [List.cons_append, lookup_cons_ne k pk pv _ (fun he => hpk he.symm)]
    exact ih h.2

/-- Looking up another key in the append branch of objSet. -/
theorem lookup_append_single_ne {β : Type} (l : List (String × β))
    (k k' : String) (v : β) (h : k' ≠ k) :
    (l ++ [(k, v)]).lookup k' = l.lookup k' := by
  induction l with
  | nil => simpa using lookup_cons_ne k' k v [] h
  | cons p rest ih =>
    obtain ⟨pk, pv⟩ := p
    by_cases hk' : k' = pk
    · subst hk'
      rw [List.cons_append, lookup_cons_self, lookup_cons_self]
    · rw [List.cons_append, lookup_cons_ne k' pk pv _ hk',
        lookup_cons_ne k' pk pv _ hk']
      exact ih

/-- objSet stores the value under the written key. -/
theorem lookup_objSet_self {β : Type} (l : List (String × β)) (k : String)
    (v : β) : (objSet l k v).lookup k = some v := by
  unfold objSet
  cases hc : l.any (fun p => p.1 == k) with
  | true => simpa [hc] using lookup_map_update_self l k v hc
  | false => simpa [hc] using lookup_append_single_self l k v hc

/-- objSet leaves other keys unchanged. -/
theorem lookup_objSet_ne {β : Type} (l : List (String × β)) (k k' : String)
    (v : β) (h : k' ≠ k) : (objSet l k v).lookup k' = l.lookup k' := by
  unfold objSet
  cases hc : l.any (fun p => p.1 == k) with
  | true => simpa [hc] using lookup_map_update_ne l k k' v h
  | false => simpa [hc] using lookup_append_single_ne l k k' v h

/-- objRemove deletes the removed key. -/
theorem lookup_objRemove_self {β : Type} (l : List (String × β))
    (k : String) : (objRemove l k).lookup k = none := by
  induction l with
  | nil => simp [objRemove]
  | cons p rest ih =>
    obtain ⟨pk, pv⟩ := p
    by_cases hk : pk = k
    · simpa [objRemove, List.filter_cons, hk] using ih
    · unfold objRemove at ih ⊢
      have hb : (pk != k) = true := by simpa using hk
      rw [List.filter_cons]
      simp only [hb, if_true]
      rw [lookup_cons_ne k pk pv _ (fun he => hk he.symm)]
      exact ih

/-- objRemove leaves other keys unchanged. -/
theorem lookup_objRemove_ne {β : Type} (l : List (String × β))
    (k k' : String) (h : k' ≠ k) :
    (objRemove l k).lookup k' = l.lookup k' := by
  induction l with
  | nil => simp [objRemove]
  | cons p rest ih =>
    obtain ⟨pk, pv⟩ := p
    unfold objRemove at ih ⊢
    by_cases hk : pk = k
    · have hb : (pk != k) = false := by simp [hk]
      rw [List.filter_cons]
      simp only [hb, if_false, Bool.false_eq_true]
      rw [lookup_cons_ne k' pk pv _ (hk ▸ h)]
      exact ih
    · have hb : (pk != k) = true := by simpa using hk
      rw [List.filter_cons]
      simp only [hb, if_true]
      by_cases hk' : k' = pk
      · subst hk'
        rw [lookup_cons_self, lookup_cons_self]
      · rw [lookup_cons_ne k' pk pv _ hk', lookup_cons_ne k' pk pv _ hk']
        exact ih

/-- A successful lookup certifies membership of the key-value pair. -/
theorem mem_of_lookup_eq_some {β : Type} (l : List (String × β)) (k : String)
    (v : β) (h : l.lookup k = some v) : (k, v) ∈ l := by
  induction l with
  | nil => simp [List.lookup] at h
  | cons p rest ih =>
    obtain ⟨pk, pv⟩ := p
    by_cases hk : k = pk
    · subst hk
      rw [lookup_cons_self] at h
      obtain rfl : pv = v := by injection h
      exact List.mem_cons_self _ _
    · rw [lookup_cons_ne k pk pv _ hk] at h
      exact List.mem_cons_of_mem _ (ih h)

/-- A successful lookup certifies membership of the key. -/
theorem mem_keys_of_lookup {β : Type} (l : List (String × β)) (k : String)
    (v : β) (h : l.lookup k = some v) : k ∈ l.map Prod.fst :=
  List.mem_map_of_mem Prod.fst (mem_of_lookup_eq_some l k v h)

/-- A present key has a successful lookup. -/
theorem lookup_isSome_of_mem_keys {β : Type} (l : List (String × β))
    (k : String) (h : k ∈ l.map Prod.fst) : ∃ v, l.lookup k = some v := by
  induction l with
  | nil => simp at h
  | cons p rest ih =>
    obtain ⟨pk, pv⟩ := p
    by_cases hk : k = pk
    · subst hk
      exact ⟨pv, lookup_cons_self k pv rest⟩
    · have h2 : k ∈ rest.map Prod.fst := by
        simpa [hk] using h
      obtain ⟨v, hv⟩ := ih h2
      exact ⟨v, by rw [lookup_cons_ne k pk pv _ hk]; exact hv⟩

/-- Removing a present key from a uniquely-keyed map drops exactly one
entry. -/
theorem length_objRemove_add_one {β : Type} (l : List (String × β))
    (k : String) (hnd : (l.map Prod.fst).Nodup) (hmem : k ∈ l.map Prod.fst) :
    (objRemove l k).length + 1 = l.length := by
  induction l with
  | nil => simp at hmem
  | cons p rest ih =>
    obtain ⟨pk, pv⟩ := p
    rw [List.map_cons, List.nodup_cons] at hnd
    by_cases hk : pk = k
    · subst hk
      have hall : objRemove rest pk = rest := by
        apply List.filter_eq_self.mpr
        intro a ha
        have hne : a.1 ≠ pk := by
          intro he
          have hmm : a.1 ∈ rest.map Prod.fst := List.mem_map_of_mem Prod.fst ha
          rw [he] at hmm
          exact hnd.1 hmm
        simpa using hne
      have hb : (pk != pk) = false := by simp
      unfold objRemove
      rw [List.filter_cons]
      simp only [hb, if_false, Bool.false_eq_true]
      simpa [objRemove] using congrArg List.length hall
    · have hmem' : k ∈ rest.map Prod.fst := by
        simpa [Ne.symm hk] using hmem
      have hlen := ih hnd.2 hmem'
      have hb : (pk != k) = true := by simpa using hk
      unfold objRemove at hlen ⊢
      rw [List.filter_cons]
      simp only [hb, if_true, List.length_cons]
      omega

/-- sweepStep on an absent key does nothing. -/
theorem sweepStep_eq_of_none {α : Type} (now : Int) (acc : CacheState α)
    (key : String) (hl : acc.store.lookup key = none) :
    CacheService.sweepStep now acc key = acc := by
  simp [CacheService.sweepStep, hl]

/-- sweepStep on an expired entry removes it. -/
theorem sweepStep_eq_of_expired {α : Type} (now : Int) (acc : CacheState α)
    (key : String) (it : CacheItem α) (hl : acc.store.lookup key = some it)
    (he : CacheService.isCacheExpired now it = true) :
    CacheService.sweepStep now acc key = CacheService.remove acc key := by
  simp [CacheService.sweepStep, hl, he]

/-- sweepStep on a live entry does nothing. -/
theorem sweepStep_eq_of_live {α : Type} (now : Int) (acc : CacheState α)
    (key : String) (it : CacheItem α) (hl : acc.store.lookup key = some it)
    (he : CacheService.isCacheExpired now it = false) :
    CacheService.sweepStep now acc key = acc := by
  simp [CacheService.sweepStep, hl, he]

/-- One sweep step never fabricates a payload entry. -/
theorem sweepStep_lookup_some {α : Type} (now : Int) (acc : CacheState α)
    (key k : String) (item : CacheItem α)
    (h : (CacheService.sweepStep now acc key).store.lookup k = some item) :
    acc.store.lookup k = some item := by
  cases hl : acc.store.lookup key with
  | none => rwa [sweepStep_eq_of_none now acc key hl] at h
  | some it =>
    cases he : CacheService.isCacheExpired now it with
    | false => rwa [sweepStep_eq_of_live now acc key it hl he] at h
    | true =>
      rw [sweepStep_eq_of_expired now acc key it hl he] at h
      by_cases hkk : k = key
      · subst hkk
        rw [show (CacheService.remove acc k).store = objRemove acc.store k
            from rfl, lookup_objRemove_self] at h
        cases h
      · rwa [show (CacheService.remove acc key).store = objRemove acc.store key
            from rfl, lookup_objRemove_ne _ _ _ hkk] at h

/-- One sweep step preserves the absence of a payload entry. -/
theorem sweepStep_lookup_none {α : Type} (now : Int) (acc : CacheState α)
    (key k : String) (h : acc.store.lookup k = none) :
    (CacheService.sweepStep now acc key).store.lookup k = none := by
  cases hl : acc.store.lookup key with
  | none => rwa [sweepStep_eq_of_none now acc key hl]
  | some it =>
    cases he : CacheService.isCacheExpired now it with
    | false => rwa [sweepStep_eq_of_live now acc key it hl he]
    | true =>
      rw [sweepStep_eq_of_expired now acc key it hl he]
      by_cases hkk : k = key
      · subst hkk
        exact lookup_objRemove_self acc.store k
      · rwa [show (CacheService.remove acc key).store = objRemove acc.store key
            from rfl, lookup_objRemove_ne _ _ _ hkk]

/-- One sweep step keeps every unexpired payload entry intact. -/
theorem sweepStep_keeps_live {α : Type} (now : Int) (acc : CacheState α)
    (key k : String) (item : CacheItem α)
    (h : acc.store.lookup k = some item)
    (hlive : CacheService.isCacheExpired now item = false) :
    (CacheService.sweepStep now acc key).store.lookup k = some item := by
  cases hl : acc.store.lookup key with
  | none => rwa [sweepStep_eq_of_none now acc key hl]
  | some it =>
    cases he : CacheService.isCacheExpired now it with
    | false => rwa [sweepStep_eq_of_live now acc key it hl he]
    | true =>
      by_cases hkk : k = key
      · subst hkk
        rw [h] at hl
        obtain rfl : item = it := by injection hl
        rw [he] at hlive
        cases hlive
      · rw [sweepStep_eq_of_expired now acc key it hl he]
        rwa [show (CacheService.remove acc key).store = objRemove acc.store key
            from rfl, lookup_objRemove_ne _ _ _ hkk]

/-- The sweep fold never fabricates a payload entry. -/
theorem foldl_sweepStep_lookup_some {α : Type} (now : Int)
    (keys : List String) :
    ∀ (acc : CacheState α) (k : String) (item : CacheItem α),
      ((keys.foldl (CacheService.sweepStep now) acc).store.lookup k =
        some item) → acc.store.lookup k = some item := by
  induction keys with
  | nil =>
    intro acc k item h
    simpa using h
  | cons key rest ih =>
    intro acc k item h
    rw [List.foldl_cons] at h
    exact sweepStep_lookup_some now acc key k item (ih _ k item h)

/-- The sweep fold preserves the absence of a payload entry. -/
theorem foldl_sweepStep_lookup_none {α : Type} (now : Int)
    (keys : List String) :
    ∀ (acc : CacheState α) (k : String), acc.store.lookup k = none →
      (keys.foldl (CacheService.sweepStep now) acc).store.lookup k = none := by
  induction keys with
  | nil =>
    intro acc k h
    simpa using h
  | cons key rest ih =>
    intro acc k h
    rw [List.foldl_cons]
    exact ih _ k (sweepStep_lookup_none now acc key k h)

/-- The sweep fold keeps every unexpired payload entry intact. -/
theorem foldl_sweepStep_keeps_live {α : Type} (now : Int)
    (keys : List String) :
    ∀ (acc : CacheState α) (k : String) (item : CacheItem α),
      acc.store.lookup k = some item →
      CacheService.isCacheExpired now item = false →
      (keys.foldl (CacheService.sweepStep now) acc).store.lookup k =
        some item := by
  induction keys with
  | nil =>
    intro acc k item h _
    simpa using h
  | cons key rest ih =>
    intro acc k item h hlive
    rw [List.foldl_cons]
    exact ih _ k item (sweepStep_keeps_live now acc key k item h hlive) hlive

/-- The sweep fold deletes every expired payload entry whose key it
visits. -/
theorem foldl_sweepStep_expired {α : Type} (now : Int) (keys : List String) :
    ∀ (acc : CacheState α) (k : String) (item : CacheItem α), k ∈ keys →
      acc.store.lookup k = some item →
      CacheService.isCacheExpired now item = true →
      (keys.foldl (CacheService.sweepStep now) acc).store.lookup k = none := by
  induction keys with
  | nil =>
    intro _ _ _ h
    cases h
  | cons key rest ih =>
    intro acc k item hmem hl he
    rw [List.foldl_cons]
    by_cases hkk : k = key
    · subst hkk
      have h1 : (CacheService.sweepStep now acc k).store.lookup k = none := by
        rw [sweepStep_eq_of_expired now acc k item hl he]
        exact lookup_objRemove_self acc.store k
      exact foldl_sweepStep_lookup_none now rest _ k h1
    · have hmem' : k ∈ rest := by
        cases List.mem_cons.mp hmem with
        | inl h' => exact absurd h' hkk
        | inr h' => exact h'
      cases h2 : (CacheService.sweepStep now acc key).store.lookup k with
      | none => exact foldl_sweepStep_lookup_none now rest _ k h2
      | some it2 =>
        have hsame : acc.store.lookup k = some it2 :=
          sweepStep_lookup_some now acc key k it2 h2
        rw [hl] at hsame
        obtain rfl : item = it2 := by injection hsame
        exact ih _ k item hmem' h2 he

/-- One sweep step only shrinks the metadata map. -/
theorem sweepStep_metadata_sublist {α : Type} (now : Int) (acc : CacheState α)
    (key : String) :
    (CacheService.sweepStep now acc key).metadata.Sublist acc.metadata := by
  cases hl : acc.store.lookup key with
  | none => rw [sweepStep_eq_of_none now acc key hl]
  | some it =>
    cases he : CacheService.isCacheExpired now it with
    | false => rw [sweepStep_eq_of_live now acc key it hl he]
    | true =>
      rw [sweepStep_eq_of_expired now acc key it hl he]
      exact List.filter_sublist acc.metadata

/-- The sweep fold only shrinks the metadata map. -/
theorem foldl_sweepStep_metadata_sublist {α : Type} (now : Int)
    (keys : List String) :
    ∀ (acc : CacheState α),
      ((keys.foldl (CacheService.sweepStep now) acc).metadata).Sublist
        acc.metadata := by
  induction keys with
  | nil =>
    intro acc
    simp
  | cons key rest ih =>
    intro acc
    rw [List.foldl_cons]
    exact (ih _).trans (sweepStep_metadata_sublist now acc key)

/-- The size-enforcement fold never fabricates a payload entry. -/
theorem foldl_remove_lookup_some {α : Type} (ks : List String) :
    ∀ (acc : CacheState α) (k : String) (item : CacheItem α),
      ((ks.foldl (fun a k' => CacheService.remove a k') acc).store.lookup k =
        some item) → acc.store.lookup k = some item := by
  induction ks with
  | nil =>
    intro acc k item h
    simpa using h
  | cons key rest ih =>
    intro acc k item h
    rw [List.foldl_cons] at h
    have h1 := ih _ k item h
    by_cases hkk : k = key
    · subst hkk
      rw [show (CacheService.remove acc k).store = objRemove acc.store k
          from rfl, lookup_objRemove_self] at h1
      cases h1
    · rwa [show (CacheService.remove acc key).store = objRemove acc.store key
          from rfl, lookup_objRemove_ne _ _ _ hkk] at h1

/-- The metadata component of the size-enforcement fold evolves
independently of the payloads. -/
theorem foldl_remove_metadata {α : Type} (ks : List String) :
    ∀ (acc : CacheState α),
      (ks.foldl (fun a k' => CacheService.remove a k') acc).metadata =
        ks.foldl (fun m k' => objRemove m k') acc.metadata := by
  induction ks with
  | nil =>
    intro acc
    rfl
  | cons key rest ih =>
    intro acc
    rw [List.foldl_cons, List.foldl_cons]
    exact ih _

/-- Folding objRemove over a key list filters out exactly those keys. -/
theorem foldl_objRemove_eq_filter {β : Type} (ks : List String) :
    ∀ (l : List (String × β)),
      ks.foldl (fun m k => objRemove m k) l =
        l.filter (fun p => decide (p.1 ∉ ks)) := by
  induction ks with
  | nil =>
    intro l
    simp
  | cons k rest ih =>
    intro l
    rw [List.foldl_cons, ih (objRemove l k)]
    unfold objRemove
    rw [List.filter_filter]
    apply List.filter_congr
    intro p hp
    by_cases h1 : p.1 = k <;> by_cases h2 : p.1 ∈ rest <;> simp [h1, h2]

/-- Removing pairwise-distinct present keys shrinks a uniquely-keyed
metadata map by exactly their number. -/
theorem foldl_remove_metadata_length {α : Type} (ks : List String) :
    ∀ (s : CacheState α), ks.Nodup →
      (∀ k ∈ ks, k ∈ s.metadata.map Prod.fst) →
      (s.metadata.map Prod.fst).Nodup →
      ((ks.foldl (fun a k' => CacheService.remove a k') s).metadata).length +
          ks.length = s.metadata.length := by
  induction ks with
  | nil =>
    intro s _ _ _
    simp
  | cons k rest ih =>
    intro s hnd hpres hmnd
    rw [List.foldl_cons]
    have hk1 : k ∈ s.metadata.map Prod.fst := hpres k (List.mem_cons_self _ _)
    have h1 : (CacheService.remove s k).metadata.length + 1 =
        s.metadata.length := length_objRemove_add_one s.metadata k hmnd hk1
    rw [List.nodup_cons] at hnd
    have hsub : ((CacheService.remove s k).metadata).Sublist s.metadata :=
      List.filter_sublist s.metadata
    have hmnd' : ((CacheService.remove s k).metadata.map Prod.fst).Nodup :=
      List.Nodup.sublist (hsub.map Prod.fst) hmnd
    have hpres' : ∀ k' ∈ rest, k' ∈
        (CacheService.remove s k).metadata.map Prod.fst := by
      intro k' hk'
      have hne : k' ≠ k := fun he => hnd.1 (he ▸ hk')
      obtain ⟨v, hv⟩ := lookup_isSome_of_mem_keys s.metadata k'
        (hpres k' (List.mem_cons_of_mem _ hk'))
      have hv' : ((CacheService.remove s k).metadata).lookup k' = some v := by
        rw [show (CacheService.remove s k).metadata = objRemove s.metadata k
            from rfl, lookup_objRemove_ne _ _ _ hne]
        exact hv
      exact mem_keys_of_lookup _ k' v hv'
    have h2 := ih (CacheService.remove s k) hnd.2 hpres' hmnd'
    simp only [List.length_cons]
    omega

/-- The timestamp comparator is transitive. -/
theorem tsLe_trans (a b c : String × Int)
    (h1 : CacheService.tsLe a b = true) (h2 : CacheService.tsLe b c = true) :
    CacheService.tsLe a c = true := by
  simp only [CacheService.tsLe, decide_eq_true_eq] at h1 h2 ⊢
  omega

/-- The timestamp comparator is total. -/
theorem tsLe_total (a b : String × Int) :
    (CacheService.tsLe a b || CacheService.tsLe b a) = true := by
  simp only [CacheService.tsLe, Bool.or_eq_true, decide_eq_true_eq]
  omega

/-- enforceCacheSize within budget is the identity. -/
theorem enforceCacheSize_eq_of_le {α : Type} (cfg : CacheConfig)
    (s : CacheState α) (h : ¬ cfg.maxCacheSize < s.metadata.length) :
    CacheService.enforceCacheSize cfg s = s := by
  unfold CacheService.enforceCacheSize
  rw [if_neg h]

/-- enforceCacheSize over budget removes the oldest surplus entries. -/
theorem enforceCacheSize_eq_of_gt {α : Type} (cfg : CacheConfig)
    (s : CacheState α) (h : cfg.maxCacheSize < s.metadata.length) :
    CacheService.enforceCacheSize cfg s =
      ((s.metadata.mergeSort CacheService.tsLe).take
          (s.metadata.length - cfg.maxCacheSize)).foldl
        (fun acc p => CacheService.remove acc p.1) s := by
  unfold CacheService.enforceCacheSize
  rw [if_pos h]

/-- C9: for every movie-browsing state, processing SET_ERROR sets the error
field, sets the main loading flag and the search loading flag to false, and
leaves every loaded movie list (popular, top rated, upcoming, now playing,
search results) and the pagination fields unchanged. -/
theorem movieReducer_setError_frame (s : MovieContext.MovieState)
    (e : Option String) :
    (MovieContext.movieReducer s (MovieContext.MovieAction.setError e)).error
        = e ∧
    (MovieContext.movieReducer s (MovieContext.MovieAction.setError e)).loading
        = false ∧
    (MovieContext.movieReducer s
        (MovieContext.MovieAction.setError e)).searchLoading = false ∧
    (MovieContext.movieReducer s
        (MovieContext.MovieAction.setError e)).popularMovies =
      s.popularMovies ∧
    (MovieContext.movieReducer s
        (MovieContext.MovieAction.setError e)).topRatedMovies =
      s.topRatedMovies ∧
    (MovieContext.movieReducer s
        (MovieContext.MovieAction.setError e)).upcomingMovies =
      s.upcomingMovies ∧
    (MovieContext.movieReducer s
        (MovieContext.MovieAction.setError e)).nowPlayingMovies =
      s.nowPlayingMovies ∧
    (MovieContext.movieReducer s
        (MovieContext.MovieAction.setError e)).searchResults =
      s.searchResults ∧
    (MovieContext.movieReducer s
        (MovieContext.MovieAction.setError e)).currentPage = s.currentPage ∧
    (MovieContext.movieReducer s
        (MovieContext.MovieAction.setError e)).totalPages = s.totalPages ∧
    (MovieContext.movieReducer s
        (MovieContext.MovieAction.setError e)).hasMorePages =
      s.hasMorePages :=
  ⟨rfl, rfl, rfl, rfl, rfl, rfl, rfl, rfl, rfl, rfl, rfl⟩

/-- C1: contrary to the claim (and to the code's own "No expiration"
comment), set defaults a missing ttl to defaultExpirationTime via the JS
`expiresIn || default` fallback, so favorites and recently-viewed lists
written by cacheFavorites / cacheRecentlyViewed expire: at 30 minutes plus
one millisecond after the write both reads return no value, while one
millisecond earlier the favorites read still returns the stored list. -/
theorem cacheFavorites_expires_after_default_ttl :
    (CacheService.getCachedFavorites
      (CacheService.cacheFavorites defaultCacheConfig emptyCacheState
        [{ id := 42, title := "m" }] 0) 1800001).1 = none ∧
    (CacheService.getCachedRecentlyViewed
      (CacheService.cacheRecentlyViewed defaultCacheConfig emptyCacheState
        [{ id := 42, title := "m" }] 0) 1800001).1 = none ∧
    (CacheService.getCachedFavorites
      (CacheService.cacheFavorites defaultCacheConfig emptyCacheState
        [{ id := 42, title := "m" }] 0) 1800000).1 =
      some [{ id := 42, title := "m" }] := by
  decide

/-- C3 counterexample: adding the same movie twice from the empty favorites
state leaves the in-memory list equal after the second call, but the
persisted list after the second call (the movie prepended twice) differs
from the persisted list after a single call, refuting the claim that both
collections agree with a single call. -/
theorem addToFavorites_twice_persisted_differs :
    ((FavoritesContext.addToFavoritesStep
        (FavoritesContext.addToFavoritesStep [] { id := 1, title := "A" }).1
        { id := 1, title := "A" }).1 =
      (FavoritesContext.addToFavoritesStep [] { id := 1, title := "A" }).1) ∧
    ¬ ((FavoritesContext.addToFavoritesStep
        (FavoritesContext.addToFavoritesStep [] { id := 1, title := "A" }).1
        { id := 1, title := "A" }).2 =
      (FavoritesContext.addToFavoritesStep [] { id := 1, title := "A" }).2) := by
  decide

/-- C3 amended: addFavorite is idempotent on the in-memory favorites (the
reducer's duplicate check makes the second call a no-op there), but the
second call's persisted write is the movie unconditionally prepended to the
first call's in-memory result, with no duplicate check. -/
theorem addToFavorites_idempotent_in_memory (mem : List Movie) (m : Movie) :
    (FavoritesContext.addToFavoritesStep
        (FavoritesContext.addToFavoritesStep mem m).1 m).1 =
      (FavoritesContext.addToFavoritesStep mem m).1 ∧
    (FavoritesContext.addToFavoritesStep
        (FavoritesContext.addToFavoritesStep mem m).1 m).2 =
      m :: (FavoritesContext.addToFavoritesStep mem m).1 := by
  refine ⟨?_, rfl⟩
  show FavoritesContext.addFavoriteReducer
      (FavoritesContext.addFavoriteReducer mem m) m =
    FavoritesContext.addFavoriteReducer mem m
  unfold FavoritesContext.addFavoriteReducer
  cases h : mem.any (fun movie => movie.id == m.id) with
  | true => simp [h]
  | false => simp [h, List.any_cons]

/-- C10: when the movie's id is already among the in-memory favorites, the
provider's addToFavorites leaves the in-memory list unchanged (reducer
no-op) but persists the movie prepended to the prior list without any
duplicate check, so the persisted list holds the id at least twice and
differs from the in-memory list. -/
theorem addToFavorites_persisted_duplicate (mem : List Movie) (m : Movie)
    (h : mem.any (fun movie => movie.id == m.id) = true) :
    (FavoritesContext.addToFavoritesStep mem m).1 = mem ∧
    (FavoritesContext.addToFavoritesStep mem m).2 = m :: mem ∧
    2 ≤ (m :: mem).countP (fun movie => movie.id == m.id) ∧
    (FavoritesContext.addToFavoritesStep mem m).2 ≠
      (FavoritesContext.addToFavoritesStep mem m).1 := by
  have h1 : (FavoritesContext.addToFavoritesStep mem m).1 = mem := by
    show FavoritesContext.addFavoriteReducer mem m = mem
    unfold FavoritesContext.addFavoriteReducer
    rw [if_pos h]
  refine ⟨h1, rfl, ?_, ?_⟩
  · rw [List.countP_cons_of_pos _ _ (by simp)]
    obtain ⟨x, hx, hpx⟩ := List.any_eq_true.mp h
    have hcp : 0 < List.countP (fun movie => movie.id == m.id) mem :=
      List.countP_pos_iff.mpr ⟨x, hx, hpx⟩
    omega
  · rw [h1]
    show m :: mem ≠ mem
    intro he
    have := congrArg List.length he
    simp at this

/-- C10 witness: a one-element favorites list already holding id 1. -/
theorem addToFavorites_persisted_duplicate_witness :
    (([{ id := 1, title := "A" }] : List Movie).any
        (fun movie => movie.id == (⟨1, "A"⟩ : Movie).id) = true) ∧
    ((FavoritesContext.addToFavoritesStep [⟨1, "A"⟩] ⟨1, "A"⟩).1 =
        [⟨1, "A"⟩] ∧
      (FavoritesContext.addToFavoritesStep [⟨1, "A"⟩] ⟨1, "A"⟩).2 =
        ⟨1, "A"⟩ :: [⟨1, "A"⟩] ∧
      2 ≤ ((⟨1, "A"⟩ : Movie) :: [⟨1, "A"⟩]).countP
          (fun movie => movie.id == (⟨1, "A"⟩ : Movie).id) ∧
      (FavoritesContext.addToFavoritesStep [⟨1, "A"⟩] ⟨1, "A"⟩).2 ≠
        (FavoritesContext.addToFavoritesStep [⟨1, "A"⟩] ⟨1, "A"⟩).1) :=
  ⟨by decide, addToFavorites_persisted_duplicate [⟨1, "A"⟩] ⟨1, "A"⟩
    (by decide)⟩

/-- C2 counterexample: when the storage write fails, adding a movie that is
not already a favorite makes StorageService.addToFavorites rethrow the
wrapped error instead of completing without throwing. -/
theorem addToFavorites_write_failure_throws :
    StorageService.addToFavorites false true none { id := 1, title := "m" } =
      Except.error "Failed to add to favorites" := by
  rfl

/-- C2 amended: the cache read path fails soft to no value with storage
untouched, the cache write path fails soft to a no-op, and the favorites
read path fails soft to the empty list; but the StorageService favorites
write path is not fail-soft: on a storage write failure addToFavorites
either returns the unchanged list without writing (id already present) or
rethrows "Failed to add to favorites". -/
theorem storage_failure_fail_soft_amended :
    (∀ (α : Type) (s : CacheState α) (key : String) (now : Int),
      CacheService.getWithReadFailure true s key now = (none, s)) ∧
    (∀ (α : Type) (cfg : CacheConfig) (s : CacheState α) (key : String)
      (d : α) (e : Option Int) (now : Int),
      CacheService.setWithWriteFailure true cfg s key d e now = s) ∧
    (∀ persisted : Option (List Movie),
      StorageService.getFavorites true persisted = []) ∧
    (∀ (persisted : Option (List Movie)) (m : Movie),
      StorageService.addToFavorites false true persisted m =
        Except.ok (StorageService.getFavorites false persisted, persisted) ∨
      StorageService.addToFavorites false true persisted m =
        Except.error "Failed to add to favorites") := by
  refine ⟨fun α s key now => rfl, fun α cfg s key d e now => rfl,
    fun persisted => rfl, ?_⟩
  intro persisted m
  unfold StorageService.addToFavorites
  cases h : (StorageService.getFavorites false persisted).any
      (fun fav => fav.id == m.id) with
  | true =>
    left
    rw [if_pos h]
  | false =>
    right
    rw [if_neg (by simp [h])]
    rfl

/-- C5: once more time than the ttl has elapsed since a set with that ttl,
a get on the key deletes the stored entry (payload and metadata) and
returns no value, with no sweep involved. -/
theorem get_lazy_expiration {α : Type} (cfg : CacheConfig) (s : CacheState α)
    (key : String) (v : α) (ttl now later : Int) (httl : 0 < ttl)
    (helapsed : ttl < later - now) :
    (CacheService.get (CacheService.set cfg s key v (some ttl) now) key
        later).1 = none ∧
    (CacheService.get (CacheService.set cfg s key v (some ttl) now) key
        later).2.store.lookup key = none ∧
    (CacheService.get (CacheService.set cfg s key v (some ttl) now) key
        later).2.metadata.lookup key = none := by
  have hjs : jsOr (some ttl) cfg.defaultExpirationTime = ttl := by
    simp only [jsOr]
    rw [if_neg]
    simp only [beq_iff_eq]
    omega
  have hitem : (CacheService.set cfg s key v (some ttl) now).store.lookup key
      = some { data := v, timestamp := now, expiresIn := some ttl } := by
    show (objSet s.store key
        { data := v, timestamp := now,
          expiresIn := some (jsOr (some ttl) cfg.defaultExpirationTime) }
      ).lookup key = _
    rw [hjs]
    exact lookup_objSet_self _ _ _
  have hexp : CacheService.isCacheExpired later
      ({ data := v, timestamp := now, expiresIn := some ttl } :
        CacheItem α) = true := by
    simp only [CacheService.isCacheExpired]
    rw [if_neg]
    · simp only [decide_eq_true_eq]
      omega
    · simp only [beq_iff_eq]
      omega
  have hget : CacheService.get (CacheService.set cfg s key v (some ttl) now)
      key later =
      (none, CacheService.remove
        (CacheService.set cfg s key v (some ttl) now) key) := by
    simp [CacheService.get, hitem, hexp]
  refine ⟨by rw [hget], ?_, ?_⟩
  · rw [hget]
    exact lookup_objRemove_self _ _
  · rw [hget]
    exact lookup_objRemove_self _ _

/-- C5 witness: key "k" with value 7 and ttl 5 written at time 0, read at
time 6. -/
theorem get_lazy_expiration_witness :
    ((0 : Int) < 5) ∧ ((5 : Int) < 6 - 0) ∧
    ((CacheService.get (CacheService.set defaultCacheConfig
        (emptyCacheState (α := Nat)) "k" 7 (some 5) 0) "k" 6).1 = none ∧
      (CacheService.get (CacheService.set defaultCacheConfig
        (emptyCacheState (α := Nat)) "k" 7 (some 5) 0) "k"
          6).2.store.lookup "k" = none ∧
      (CacheService.get (CacheService.set defaultCacheConfig
        (emptyCacheState (α := Nat)) "k" 7 (some 5) 0) "k"
          6).2.metadata.lookup "k" = none) :=
  ⟨by decide, by decide,
    get_lazy_expiration defaultCacheConfig emptyCacheState "k" 7 5 0 6
      (by decide) (by decide)⟩

/-- C6: a set with a positive ttl followed by a get on the same key before
the ttl has elapsed returns the stored value and leaves the storage as the
set left it. -/
theorem set_get_roundtrip {α : Type} (cfg : CacheConfig) (s : CacheState α)
    (key : String) (v : α) (ttl now later : Int) (httl : 0 < ttl)
    (hfresh : later - now ≤ ttl) :
    CacheService.get (CacheService.set cfg s key v (some ttl) now) key later
      = (some v, CacheService.set cfg s key v (some ttl) now) := by
  have hjs : jsOr (some ttl) cfg.defaultExpirationTime = ttl := by
    simp only [jsOr]
    rw [if_neg]
    simp only [beq_iff_eq]
    omega
  have hitem : (CacheService.set cfg s key v (some ttl) now).store.lookup key
      = some { data := v, timestamp := now, expiresIn := some ttl } := by
    show (objSet s.store key
        { data := v, timestamp := now,
          expiresIn := some (jsOr (some ttl) cfg.defaultExpirationTime) }
      ).lookup key = _
    rw [hjs]
    exact lookup_objSet_self _ _ _
  have hlive : CacheService.isCacheExpired later
      ({ data := v, timestamp := now, expiresIn := some ttl } :
        CacheItem α) = false := by
    simp only [CacheService.isCacheExpired]
    rw [if_neg]
    · simp only [decide_eq_false_iff_not]
      omega
    · simp only [beq_iff_eq]
      omega
  simp [CacheService.get, hitem, hlive]

/-- C6 witness: key "k" with value 7 and ttl 5 written at time 0, read back
at time 5. -/
theorem set_get_roundtrip_witness :
    ((0 : Int) < 5) ∧ ((5 : Int) - 0 ≤ 5) ∧
    CacheService.get (CacheService.set defaultCacheConfig
        (emptyCacheState (α := Nat)) "k" 7 (some 5) 0) "k" 5
      = (some 7, CacheService.set defaultCacheConfig
          (emptyCacheState (α := Nat)) "k" 7 (some 5) 0) :=
  ⟨by decide, by decide,
    set_get_roundtrip defaultCacheConfig emptyCacheState "k" 7 5 0 5
      (by decide) (by decide)⟩

/-- C7: addRecentlyViewed removes any existing entry with the movie's id,
prepends the movie and truncates to 50 entries, so the result never exceeds
50 entries, keeps ids duplicate-free, holds exactly one entry with the new
movie's id, and adding the 51 distinct movies 1..51 in order leaves a
50-entry list with no entry of id 1. -/
theorem addRecentlyViewed_bounded_nodup (recent : List Movie) (m : Movie)
    (hnd : (recent.map Movie.id).Nodup) :
    (FavoritesContext.addRecentlyViewedReducer recent m).length ≤ 50 ∧
    ((FavoritesContext.addRecentlyViewedReducer recent m).map
      Movie.id).Nodup ∧
    (FavoritesContext.addRecentlyViewedReducer recent m).countP
      (fun movie => movie.id == m.id) = 1 ∧
    ((List.range 51).foldl
        (fun acc i => FavoritesContext.addRecentlyViewedReducer acc
          { id := i + 1, title := "" }) []).length = 50 ∧
    ((List.range 51).foldl
        (fun acc i => FavoritesContext.addRecentlyViewedReducer acc
          { id := i + 1, title := "" }) []).all
      (fun movie => movie.id != 1) = true := by
  refine ⟨?_, ?_, ?_, by decide, by decide⟩
  · show ((m :: recent.filter
        (fun movie => movie.id != m.id)).take 50).length ≤ 50
    rw [List.length_take]
    omega
  · show (((m :: recent.filter
        (fun movie => movie.id != m.id)).take 50).map Movie.id).Nodup
    rw [List.map_take]
    apply List.Nodup.sublist (List.take_sublist _ _)
    rw [List.map_cons]
    apply List.nodup_cons.mpr
    constructor
    · intro hmem
      obtain ⟨x, hx, hxid⟩ := List.mem_map.mp hmem
      have hpred := (List.mem_filter.mp hx).2
      rw [bne_iff_ne] at hpred
      exact hpred hxid
    · exact List.Nodup.sublist ((List.filter_sublist recent).map Movie.id) hnd
  · show ((m :: recent.filter
        (fun movie => movie.id != m.id)).take 50).countP
      (fun movie => movie.id == m.id) = 1
    rw [show (50 : Nat) = 49 + 1 from rfl, List.take_succ_cons,
      List.countP_cons_of_pos _ _ (by simp)]
    have hz : List.countP (fun movie => movie.id == m.id)
        ((recent.filter (fun movie => movie.id != m.id)).take 49) = 0 := by
      apply List.countP_eq_zero.mpr
      intro x hx
      have hpred := (List.mem_filter.mp (List.mem_of_mem_take hx)).2
      simpa using hpred
    omega

/-- C7 witness: a two-entry duplicate-free list and a fresh movie. -/
theorem addRecentlyViewed_bounded_nodup_witness :
    (([⟨2, "B"⟩, ⟨3, "C"⟩] : List Movie).map Movie.id).Nodup ∧
    ((FavoritesContext.addRecentlyViewedReducer [⟨2, "B"⟩, ⟨3, "C"⟩]
        ⟨1, "A"⟩).length ≤ 50 ∧
      ((FavoritesContext.addRecentlyViewedReducer [⟨2, "B"⟩, ⟨3, "C"⟩]
        ⟨1, "A"⟩).map Movie.id).Nodup ∧
      (FavoritesContext.addRecentlyViewedReducer [⟨2, "B"⟩, ⟨3, "C"⟩]
        ⟨1, "A"⟩).countP
        (fun movie => movie.id == (⟨1, "A"⟩ : Movie).id) = 1 ∧
      ((List.range 51).foldl
          (fun acc i => FavoritesContext.addRecentlyViewedReducer acc
            { id := i + 1, title := "" }) []).length = 50 ∧
      ((List.range 51).foldl
          (fun acc i => FavoritesContext.addRecentlyViewedReducer acc
            { id := i + 1, title := "" }) []).all
        (fun movie => movie.id != 1) = true) :=
  ⟨by decide, addRecentlyViewed_bounded_nodup [⟨2, "B"⟩, ⟨3, "C"⟩] ⟨1, "A"⟩
    (by decide)⟩

/-- C8: committing a non-blank query to the search history removes every
entry equal to it ignoring letter case, places the query at index 0,
truncates to at most 10 entries, and preserves case-insensitive
duplicate-freedom. -/
theorem addToSearchHistory_dedup_cap (history : List String) (q : String)
    (hq : jsTrim q ≠ "")
    (hp : history.Pairwise (fun a b => jsToLower a ≠ jsToLower b)) :
    (StorageService.addToSearchHistory history q).head? = some q ∧
    (StorageService.addToSearchHistory history q).length ≤ 10 ∧
    (∀ x ∈ (StorageService.addToSearchHistory history q).tail,
      jsToLower x ≠ jsToLower q) ∧
    (StorageService.addToSearchHistory history q).Pairwise
      (fun a b => jsToLower a ≠ jsToLower b) := by
  have hqb : (jsTrim q == "") = false := beq_eq_false_iff_ne.mpr hq
  have hr : StorageService.addToSearchHistory history q =
      q :: (history.filter
        (fun item => jsToLower item != jsToLower q)).take 9 := by
    unfold StorageService.addToSearchHistory
    simp only [hqb, Bool.false_eq_true, if_false,
      StorageService.MAX_SEARCH_HISTORY]
    rw [show (10 : Nat) = 9 + 1 from rfl, List.take_succ_cons]
  refine ⟨by rw [hr]; rfl, ?_, ?_, ?_⟩
  · rw [hr]
    simp only [List.length_cons, List.length_take]
    omega
  · rw [hr]
    intro x hx
    have hpred := (List.mem_filter.mp
      (List.mem_of_mem_take (by simpa using hx))).2
    simpa using hpred
  · rw [hr]
    apply List.pairwise_cons.mpr
    constructor
    · intro b hb
      have hpred := (List.mem_filter.mp (List.mem_of_mem_take hb)).2
      have hne : jsToLower b ≠ jsToLower q := by simpa using hpred
      exact fun he => hne he.symm
    · exact List.Pairwise.sublist ((List.take_sublist _ _).trans
        (List.filter_sublist _)) hp

/-- C8 witness: history ["The Matrix", "OLD"] and committed query "old". -/
theorem addToSearchHistory_dedup_cap_witness :
    jsTrim "old" ≠ "" ∧
    (["The Matrix", "OLD"] : List String).Pairwise
      (fun a b => jsToLower a ≠ jsToLower b) ∧
    ((StorageService.addToSearchHistory ["The Matrix", "OLD"] "old").head? =
        some "old" ∧
      (StorageService.addToSearchHistory ["The Matrix", "OLD"] "old").length
        ≤ 10 ∧
      (∀ x ∈ (StorageService.addToSearchHistory ["The Matrix", "OLD"]
          "old").tail, jsToLower x ≠ jsToLower "old") ∧
      (StorageService.addToSearchHistory
          ["The Matrix", "OLD"] "old").Pairwise
        (fun a b => jsToLower a ≠ jsToLower b)) :=
  ⟨by decide, by decide,
    addToSearchHistory_dedup_cap ["The Matrix", "OLD"] "old" (by decide)
      (by decide)⟩

/-- C4: over a storage whose payload keys are all tracked in the
uniquely-keyed metadata map, the periodic sweep keeps every unexpired entry,
removes every entry with createdAt + ttl < now (every surviving payload is
unexpired and was present before), and afterwards the size enforcement
leaves at most maxCacheSize metadata entries — exactly maxCacheSize when the
sweep left more — and every entry it evicts is oldest-by-metadata-timestamp:
its timestamp is at most that of every surviving entry. -/
theorem cleanupExpiredItems_spec {α : Type} (cfg : CacheConfig)
    (s : CacheState α) (now : Int)
    (hsub : ∀ p ∈ s.store, p.1 ∈ s.metadata.map Prod.fst)
    (hnd : (s.metadata.map Prod.fst).Nodup) :
    (∀ k item, s.store.lookup k = some item →
      CacheService.isCacheExpired now item = false →
      (CacheService.sweepExpired s now).store.lookup k = some item) ∧
    (∀ k item,
      (CacheService.cleanupExpiredItems cfg s now).store.lookup k =
        some item →
      s.store.lookup k = some item ∧
        CacheService.isCacheExpired now item = false) ∧
    (CacheService.cleanupExpiredItems cfg s now).metadata.length ≤
      cfg.maxCacheSize ∧
    (cfg.maxCacheSize < (CacheService.sweepExpired s now).metadata.length →
      (CacheService.cleanupExpiredItems cfg s now).metadata.length =
        cfg.maxCacheSize) ∧
    (∀ p ∈ (CacheService.sweepExpired s now).metadata,
      p.1 ∉ (CacheService.cleanupExpiredItems cfg s now).metadata.map
        Prod.fst →
      ∀ q ∈ (CacheService.cleanupExpiredItems cfg s now).metadata,
        p.2 ≤ q.2) := by
  unfold CacheService.cleanupExpiredItems
  set s1 := CacheService.sweepExpired s now with hs1
  have hs1fold : s1 = (s.metadata.map Prod.fst).foldl
      (CacheService.sweepStep now) s := hs1
  have hs1sub : s1.metadata.Sublist s.metadata := by
    rw [hs1fold]
    exact foldl_sweepStep_metadata_sublist now _ s
  have hnd1 : (s1.metadata.map Prod.fst).Nodup :=
    List.Nodup.sublist (hs1sub.map Prod.fst) hnd
  have hfold : ∀ (l : List (String × Int)) (st : CacheState α),
      l.foldl (fun acc e => CacheService.remove acc e.1) st =
        (l.map Prod.fst).foldl (fun a k' => CacheService.remove a k') st :=
    fun l st => (List.foldl_map _ _ _ _).symm
  have hA : ∀ k item, s.store.lookup k = some item →
      CacheService.isCacheExpired now item = false →
      s1.store.lookup k = some item := by
    intro k item h hl
    rw [hs1fold]
    exact foldl_sweepStep_keeps_live now _ s k item h hl
  have hback : ∀ k item,
      (CacheService.enforceCacheSize cfg s1).store.lookup k = some item →
      s1.store.lookup k = some item := by
    intro k item h
    by_cases hgt : cfg.maxCacheSize < s1.metadata.length
    · rw [enforceCacheSize_eq_of_gt cfg s1 hgt, hfold] at h
      exact foldl_remove_lookup_some _ s1 k item h
    · rwa [enforceCacheSize_eq_of_le cfg s1 hgt] at h
  have hB : ∀ k item,
      (CacheService.enforceCacheSize cfg s1).store.lookup k = some item →
      s.store.lookup k = some item ∧
        CacheService.isCacheExpired now item = false := by
    intro k item h
    have hs1some := hback k item h
    have hstore : s.store.lookup k = some item := by
      rw [hs1fold] at hs1some
      exact foldl_sweepStep_lookup_some now _ s k item hs1some
    refine ⟨hstore, ?_⟩
    rcases Bool.eq_false_or_eq_true (CacheService.isCacheExpired now item)
      with hb | hb
    · exfalso
      have hkmem : k ∈ s.metadata.map Prod.fst :=
        hsub (k, item) (mem_of_lookup_eq_some s.store k item hstore)
      have hnone : s1.store.lookup k = none := by
        rw [hs1fold]
        exact foldl_sweepStep_expired now _ s k item hkmem hstore hb
      rw [hs1some] at hnone
      cases hnone
    · exact hb
  have hD : cfg.maxCacheSize < s1.metadata.length →
      (CacheService.enforceCacheSize cfg s1).metadata.length =
        cfg.maxCacheSize := by
    intro hgt
    have hperm : (s1.metadata.mergeSort CacheService.tsLe).Perm s1.metadata :=
      List.mergeSort_perm _ _
    have hsortednd : ((s1.metadata.mergeSort CacheService.tsLe).map
        Prod.fst).Nodup := ((hperm.map Prod.fst).symm).nodup hnd1
    have hksnd : (((s1.metadata.mergeSort CacheService.tsLe).take
        (s1.metadata.length - cfg.maxCacheSize)).map Prod.fst).Nodup := by
      rw [List.map_take]
      exact List.Nodup.sublist (List.take_sublist _ _) hsortednd
    have hkspres : ∀ k ∈ ((s1.metadata.mergeSort CacheService.tsLe).take
        (s1.metadata.length - cfg.maxCacheSize)).map Prod.fst,
        k ∈ s1.metadata.map Prod.fst := by
      intro k hk
      obtain ⟨r, hr, hrk⟩ := List.mem_map.mp hk
      have hrs : r ∈ s1.metadata := hperm.mem_iff.mp (List.mem_of_mem_take hr)
      exact hrk ▸ List.mem_map_of_mem Prod.fst hrs
    have hkslen : (((s1.metadata.mergeSort CacheService.tsLe).take
        (s1.metadata.length - cfg.maxCacheSize)).map Prod.fst).length =
        s1.metadata.length - cfg.maxCacheSize := by
      rw [List.length_map, List.length_take, hperm.length_eq]
      omega
    have hlen := foldl_remove_metadata_length
      (((s1.metadata.mergeSort CacheService.tsLe).take
        (s1.metadata.length - cfg.maxCacheSize)).map Prod.fst) s1 hksnd
      hkspres hnd1
    rw [enforceCacheSize_eq_of_gt cfg s1 hgt, hfold]
    omega
  have hC : (CacheService.enforceCacheSize cfg s1).metadata.length ≤
      cfg.maxCacheSize := by
    by_cases hgt : cfg.maxCacheSize < s1.metadata.length
    · exact Nat.le_of_eq (hD hgt)
    · rw [enforceCacheSize_eq_of_le cfg s1 hgt]
      omega
  have hE : ∀ p ∈ s1.metadata,
      p.1 ∉ (CacheService.enforceCacheSize cfg s1).metadata.map Prod.fst →
      ∀ q ∈ (CacheService.enforceCacheSize cfg s1).metadata, p.2 ≤ q.2 := by
    intro p hp hnot q hq
    by_cases hgt : cfg.maxCacheSize < s1.metadata.length
    · have hperm : (s1.metadata.mergeSort CacheService.tsLe).Perm
          s1.metadata := List.mergeSort_perm _ _
      have hmeta : (CacheService.enforceCacheSize cfg s1).metadata =
          s1.metadata.filter (fun e => decide (e.1 ∉
            ((s1.metadata.mergeSort CacheService.tsLe).take
              (s1.metadata.length - cfg.maxCacheSize)).map Prod.fst)) := by
        rw [enforceCacheSize_eq_of_gt cfg s1 hgt, hfold,
          foldl_remove_metadata, foldl_objRemove_eq_filter]
      rw [hmeta] at hq
      obtain ⟨hqs1, hqks⟩ := List.mem_filter.mp hq
      have hqnotks := of_decide_eq_true hqks
      have hpks : p.1 ∈ ((s1.metadata.mergeSort CacheService.tsLe).take
          (s1.metadata.length - cfg.maxCacheSize)).map Prod.fst := by
        by_contra hpn
        apply hnot
        rw [hmeta]
        exact List.mem_map_of_mem Prod.fst
          (List.mem_filter.mpr ⟨hp, decide_eq_true hpn⟩)
      obtain ⟨r, hrmem, hr1⟩ := List.mem_map.mp hpks
      have hrs1 : r ∈ s1.metadata := hperm.mem_iff.mp
        (List.mem_of_mem_take hrmem)
      have hrp : r = p := List.inj_on_of_nodup_map hnd1 hrs1 hp hr1
      have hptake : p ∈ (s1.metadata.mergeSort CacheService.tsLe).take
          (s1.metadata.length - cfg.maxCacheSize) := hrp ▸ hrmem
      have hqsorted : q ∈ s1.metadata.mergeSort CacheService.tsLe :=
        hperm.mem_iff.mpr hqs1
      have hqsplit : q ∈ (s1.metadata.mergeSort CacheService.tsLe).take
          (s1.metadata.length - cfg.maxCacheSize) ++
            (s1.metadata.mergeSort CacheService.tsLe).drop
              (s1.metadata.length - cfg.maxCacheSize) := by
        rw [List.take_append_drop]
        exact hqsorted
      have hqdrop : q ∈ (s1.metadata.mergeSort CacheService.tsLe).drop
          (s1.metadata.length - cfg.maxCacheSize) := by
        rcases List.mem_append.mp hqsplit with hqt | hqd
        · exact absurd (List.mem_map_of_mem Prod.fst hqt) hqnotks
        · exact hqd
      have hsorted := List.sorted_mergeSort tsLe_trans tsLe_total s1.metadata
      have hpw : List.Pairwise (fun a b => CacheService.tsLe a b = true)
          ((s1.metadata.mergeSort CacheService.tsLe).take
              (s1.metadata.length - cfg.maxCacheSize) ++
            (s1.metadata.mergeSort CacheService.tsLe).drop
              (s1.metadata.length - cfg.maxCacheSize)) := by
        rw [List.take_append_drop]
        exact hsorted
      have hts := (List.pairwise_append.mp hpw).2.2 p hptake q hqdrop
      simpa [CacheService.tsLe, decide_eq_true_eq] using hts
    · rw [enforceCacheSize_eq_of_le cfg s1 hgt] at hnot
      exact absurd (List.mem_map_of_mem Prod.fst hp) hnot
  exact ⟨hA, hB, hC, hD, hE⟩

/-- C4 witness: three tracked entries, one expired at time 100, a size
budget of one. -/
theorem cleanupExpiredItems_spec_witness :
    (∀ p ∈ (⟨[("a", ⟨1, 0, some 10⟩), ("b", ⟨2, 5, some 1000⟩),
        ("c", ⟨3, 7, none⟩)], [("a", 0), ("b", 5), ("c", 7)]⟩ :
          CacheState Nat).store,
      p.1 ∈ (⟨[("a", ⟨1, 0, some 10⟩), ("b", ⟨2, 5, some 1000⟩),
        ("c", ⟨3, 7, none⟩)], [("a", 0), ("b", 5), ("c", 7)]⟩ :
          CacheState Nat).metadata.map Prod.fst) ∧
    ((⟨[("a", ⟨1, 0, some 10⟩), ("b", ⟨2, 5, some 1000⟩),
        ("c", ⟨3, 7, none⟩)], [("a", 0), ("b", 5), ("c", 7)]⟩ :
          CacheState Nat).metadata.map Prod.fst).Nodup ∧
    ((∀ k item, (⟨[("a", ⟨1, 0, some 10⟩), ("b", ⟨2, 5, some 1000⟩),
          ("c", ⟨3, 7, none⟩)], [("a", 0), ("b", 5), ("c", 7)]⟩ :
            CacheState Nat).store.lookup k = some item →
        CacheService.isCacheExpired 100 item = false →
        (CacheService.sweepExpired (⟨[("a", ⟨1, 0, some 10⟩),
          ("b", ⟨2, 5, some 1000⟩), ("c", ⟨3, 7, none⟩)],
          [("a", 0), ("b", 5), ("c", 7)]⟩ : CacheState Nat)
            100).store.lookup k = some item) ∧
      (∀ k item, (CacheService.cleanupExpiredItems ⟨1800000, 1, 3600000⟩
          (⟨[("a", ⟨1, 0, some 10⟩), ("b", ⟨2, 5, some 1000⟩),
            ("c", ⟨3, 7, none⟩)], [("a", 0), ("b", 5), ("c", 7)]⟩ :
              CacheState Nat) 100).store.lookup k = some item →
        (⟨[("a", ⟨1, 0, some 10⟩), ("b", ⟨2, 5, some 1000⟩),
          ("c", ⟨3, 7, none⟩)], [("a", 0), ("b", 5), ("c", 7)]⟩ :
            CacheState Nat).store.lookup k = some item ∧
          CacheService.isCacheExpired 100 item = false) ∧
      (CacheService.cleanupExpiredItems ⟨1800000, 1, 3600000⟩
          (⟨[("a", ⟨1, 0, some 10⟩), ("b", ⟨2, 5, some 1000⟩),
            ("c", ⟨3, 7, none⟩)], [("a", 0), ("b", 5), ("c", 7)]⟩ :
              CacheState Nat) 100).metadata.length ≤
        (⟨1800000, 1, 3600000⟩ : CacheConfig).maxCacheSize ∧
      ((⟨1800000, 1, 3600000⟩ : CacheConfig).maxCacheSize <
          (CacheService.sweepExpired (⟨[("a", ⟨1, 0, some 10⟩),
            ("b", ⟨2, 5, some 1000⟩), ("c", ⟨3, 7, none⟩)],
            [("a", 0), ("b", 5), ("c", 7)]⟩ : CacheState Nat)
              100).metadata.length →
        (CacheService.cleanupExpiredItems ⟨1800000, 1, 3600000⟩
            (⟨[("a", ⟨1, 0, some 10⟩), ("b", ⟨2, 5, some 1000⟩),
              ("c", ⟨3, 7, none⟩)], [("a", 0), ("b", 5), ("c", 7)]⟩ :
                CacheState Nat) 100).metadata.length =
          (⟨1800000, 1, 3600000⟩ : CacheConfig).maxCacheSize) ∧
      (∀ p ∈ (CacheService.sweepExpired (⟨[("a", ⟨1, 0, some 10⟩),
            ("b", ⟨2, 5, some 1000⟩), ("c", ⟨3, 7, none⟩)],
            [("a", 0), ("b", 5), ("c", 7)]⟩ : CacheState Nat) 100).metadata,
        p.1 ∉ (CacheService.cleanupExpiredItems ⟨1800000, 1, 3600000⟩
            (⟨[("a", ⟨1, 0, some 10⟩), ("b", ⟨2, 5, some 1000⟩),
              ("c", ⟨3, 7, none⟩)], [("a", 0), ("b", 5), ("c", 7)]⟩ :
                CacheState Nat) 100).metadata.map Prod.fst →
        ∀ q ∈ (CacheService.cleanupExpiredItems ⟨1800000, 1, 3600000⟩
            (⟨[("a", ⟨1, 0, some 10⟩), ("b", ⟨2, 5, some 1000⟩),
              ("c", ⟨3, 7, none⟩)], [("a", 0), ("b", 5), ("c", 7)]⟩ :
                CacheState Nat) 100).metadata, p.2 ≤ q.2)) :=
  ⟨by decide, by decide,
    cleanupExpiredItems_spec ⟨1800000, 1, 3600000⟩
      ⟨[("a", ⟨1, 0, some 10⟩), ("b", ⟨2, 5, some 1000⟩),
        ("c", ⟨3, 7, none⟩)], [("a", 0), ("b", 5), ("c", 7)]⟩ 100
      (by decide) (by decide)⟩

end MovieApp
